import Mathlib

/-!
Shallow embedding of the portfolio report agent's section state machine
(src/langgraph_agent/src/graphs/main_graph.py) and its agent nodes
(extractor.py, writer.py, table_generator.py, graph_generator.py), with the
Reviewer node modelled from the specification (its source file is not part of
the source tree).  Machine integers are Nat; Python dict partial updates are
records of Option fields; fallible model calls are Except values supplied by
an oracle.
-/

deriving instance DecidableEq for Except

/-- A loaded input document: filename, content, metadata (document_loader
records, consumed read-only by every node). -/
structure Document where
  filename : String
  content : String
  metadata : List (String × String)
deriving DecidableEq, Repr

/-- A citation reference as produced by the extractor and writer:
a document name and a location (page/row). -/
structure Reference where
  document : String
  location : String
deriving DecidableEq, Repr

/-- Reviewer critique: the three lists of the critique dict; a key missing
from the parsed JSON is modelled as the empty list (both are falsy in the
deciders of main_graph.py). -/
structure Critique where
  expand_on : List String
  remove_or_rephrase : List String
  search_terms : List String
deriving DecidableEq, Repr

/-- Tabular data as returned by the table generator: a title and rows, each
row a mapping from column header to scalar (modelled as strings). -/
structure TableData where
  title : String
  rows : List (List (String × String))
deriving DecidableEq, Repr

/-- A graph specification as returned by the graph generator: title, type
(bar, line, pie, textual_description or none) and data payload (modelled as a
string). -/
structure GraphSpec where
  title : String
  type : String
  data : String
deriving DecidableEq, Repr

/-- One entry of the completed_sections list as written by
TableGeneratorNode.generate_table and GraphGeneratorNode.generate_graph:
those nodes record their output here under the keys tabular_data and
graph_spec respectively. -/
structure CompletedSection where
  sectionTitle : String
  content : String
  tabular_data : Option TableData
  graph_spec : Option GraphSpec
  references : List Reference
deriving DecidableEq, Repr

/-- The parsed JSON object of an extractor or writer model response:
content and references keys, either possibly missing. -/
structure ParsedDraft where
  content : Option String
  references : Option (List Reference)
deriving DecidableEq, Repr

/-- The per-section AgentState dict, restricted to the keys the modelled
nodes and deciders read and write.  Keys that run_analysis initialises are
total fields with those initial values as the per-section start; the keys
current_section_content and current_section_references, absent until first
written, are modelled as "" and [] because every read site applies exactly
those defaults (state.get with default). -/
structure AgentState where
  documents : List Document
  current_section : String
  current_section_instruction : String
  current_section_content : String
  current_section_references : List Reference
  critique : Option Critique
  loop_count : Nat
  tabular_data : Option TableData
  graph_specs : List GraphSpec
  completed_sections : List CompletedSection
  msgs : Nat
deriving DecidableEq, Repr

/-- A partial state update as returned by a node: the dict of keys the node
writes.  A none field means the key is absent from the returned dict;
messageAdded records whether the update appends to the messages log. -/
structure StateUpdate where
  current_section_content : Option String
  current_section_references : Option (List Reference)
  critique : Option Critique
  loop_count : Option Nat
  tabular_data : Option TableData
  graph_specs : Option (List GraphSpec)
  completed_sections : Option (List CompletedSection)
  messageAdded : Bool
deriving DecidableEq, Repr

/-- The empty update: the node returned an empty dict. -/
def emptyUpdate : StateUpdate :=
  { current_section_content := none
    current_section_references := none
    critique := none
    loop_count := none
    tabular_data := none
    graph_specs := none
    completed_sections := none
    messageAdded := false }

/-- An update carrying only an appended message (the error and skip branches
of the extractor and writer return exactly this shape). -/
def messageOnlyUpdate : StateUpdate :=
  { emptyUpdate with messageAdded := true }

/-- Merge a partial update into the state, dict.update semantics: present
keys overwrite, absent keys leave the state untouched. -/
def applyUpdate (s : AgentState) (u : StateUpdate) : AgentState :=
  { s with
    current_section_content := u.current_section_content.getD s.current_section_content
    current_section_references := u.current_section_references.getD s.current_section_references
    critique := match u.critique with | some c => some c | none => s.critique
    loop_count := u.loop_count.getD s.loop_count
    tabular_data := match u.tabular_data with | some t => some t | none => s.tabular_data
    graph_specs := u.graph_specs.getD s.graph_specs
    completed_sections := u.completed_sections.getD s.completed_sections
    msgs := if u.messageAdded then s.msgs + 1 else s.msgs }

/-- ExtractorNode.extract (extractor.py lines 41-115).  Raises ValueError
(modelled as Except.error) when the title is falsy or the document list is
empty; otherwise, on a model/parse failure returns a message-only update, and
on success returns content defaulted to "" and references defaulted to []
(extraction_result.get with those defaults). -/
def extract (s : AgentState) (mr : Except String ParsedDraft) :
    Except String StateUpdate :=
  if s.current_section = "" then
    Except.error "No current section title specified in the agent state."
  else if s.documents = [] then
    Except.error "No documents available in the agent state for extraction."
  else
    match mr with
    | Except.error _ => Except.ok messageOnlyUpdate
    | Except.ok r =>
        Except.ok { emptyUpdate with
          current_section_content := some (r.content.getD "")
          current_section_references := some (r.references.getD [])
          messageAdded := true }

/-- Modelled from the spec: the ReviewerNode source file is not in the
source tree; section 4.2 gives its contract.  review requires non-empty
content (empty content is an InvalidInput failure) and otherwise sets the
critique from the parsed model response; per section 7 a failure leaves the
accumulated state unchanged apart from a recorded message. -/
def review (s : AgentState) (mr : Except String Critique) : StateUpdate :=
  if s.current_section_content = "" then messageOnlyUpdate
  else
    match mr with
    | Except.error _ => messageOnlyUpdate
    | Except.ok c => { messageOnlyUpdate with critique := some c }

/-- The Python truthiness test of the review decider:
critique and (critique.get("expand_on") or critique.get("remove_or_rephrase")). -/
def critiqueActionable (c : Critique) : Bool :=
  !c.expand_on.isEmpty || !c.remove_or_rephrase.isEmpty

/-- PortfolioAnalysisGraph._decide_next_step_after_extraction
(main_graph.py lines 115-122): always returns "review". -/
def decide_next_step_after_extraction (_s : AgentState) : String :=
  "review"

/-- PortfolioAnalysisGraph._decide_next_step_after_review
(main_graph.py lines 124-141): "rewrite" iff the critique is truthy with a
truthy expand_on or remove_or_rephrase and loop_count < max_review_loops,
else "table_generation". -/
def decide_next_step_after_review (maxLoops : Nat) (s : AgentState) : String :=
  match s.critique with
  | none => "table_generation"
  | some c =>
      if critiqueActionable c && decide (s.loop_count < maxLoops) then "rewrite"
      else "table_generation"

/-- PortfolioAnalysisGraph._decide_next_step_after_writer
(main_graph.py lines 143-162): "review" iff loop_count < max_review_loops,
else "table_generation". -/
def decide_next_step_after_writer (maxLoops : Nat) (s : AgentState) : String :=
  if s.loop_count < maxLoops then "review" else "table_generation"

/-- WriterNode._perform_targeted_search inner snippet (writer.py line 141):
the collected string for one term matching one document, with the document
content excerpt capped at its first 200 characters (content[:200]). -/
def foundSnippet (term : String) (doc : Document) : String :=
  "Found \x27" ++ term ++ "\x27 in " ++ doc.filename ++ ":\n"
    ++ String.mk (doc.content.data.take 200) ++ "..."

/-- Case-insensitive substring test, the model of
term.lower() in content.lower() (writer.py line 139). -/
def containsCI (content term : String) : Bool :=
  decide (List.IsInfix term.toLower.data content.toLower.data)

/-- The found_info list accumulated by WriterNode._perform_targeted_search:
for each term in order, a snippet per document whose content contains the
term case-insensitively, in document order. -/
def search_snippets (documents : List Document) (search_terms : List String) :
    List String :=
  search_terms.flatMap fun term =>
    documents.filterMap fun doc =>
      if containsCI doc.content term then some (foundSnippet term doc) else none

/-- WriterNode._perform_targeted_search (writer.py lines 125-142). -/
def perform_targeted_search (documents : List Document)
    (search_terms : List String) : String :=
  if search_terms.isEmpty then "No specific search terms provided."
  else
    let found_info := search_snippets documents search_terms
    if found_info.isEmpty then "No new information found for search terms."
    else String.intercalate "\n" found_info

/-- WriterNode.rewrite (writer.py lines 48-123).  Raises ValueError when the
title is falsy; returns a message-only update when the critique is falsy or
the original content is empty (skip branches) and on a model/parse failure
(except branch); on success replaces content and references (defaulted like
the extractor) and increments loop_count by one. -/
def rewrite (s : AgentState) (mr : Except String ParsedDraft) :
    Except String StateUpdate :=
  if s.current_section = "" then
    Except.error "No current section specified in the agent state."
  else if s.critique = none then
    Except.ok messageOnlyUpdate
  else if s.current_section_content = "" then
    Except.ok messageOnlyUpdate
  else
    match mr with
    | Except.error _ => Except.ok messageOnlyUpdate
    | Except.ok r =>
        Except.ok { emptyUpdate with
          current_section_content := some (r.content.getD "")
          current_section_references := some (r.references.getD [])
          loop_count := some (s.loop_count + 1)
          messageAdded := true }

/-- TableGeneratorNode.generate_table (table_generator.py lines 46-90).  On
failure returns the empty dict.  On success it writes the generated table
only into the completed_sections entries whose section key matches the
current title (appending a fallback entry when none matches); it never
writes the tabular_data state key. -/
def generate_table (s : AgentState) (mr : Except String TableData) :
    StateUpdate :=
  match mr with
  | Except.error _ => emptyUpdate
  | Except.ok t =>
      let updated := s.completed_sections.map fun sec =>
        if sec.sectionTitle = s.current_section then
          { sec with tabular_data := some t }
        else sec
      let found := s.completed_sections.any fun sec =>
        sec.sectionTitle = s.current_section
      let updated := if found then updated else updated ++
        [{ sectionTitle := s.current_section
           content := s.current_section_content
           tabular_data := some t
           graph_spec := none
           references := [] }]
      { emptyUpdate with completed_sections := some updated }

/-- GraphGeneratorNode.generate_graph (graph_generator.py lines 61-113).  On
failure returns the empty dict.  On success it appends a new
completed_sections entry carrying the graph spec under the graph_spec key;
it never writes the graph_specs state key. -/
def generate_graph (s : AgentState) (mr : Except String GraphSpec) :
    StateUpdate :=
  match mr with
  | Except.error _ => emptyUpdate
  | Except.ok g =>
      { emptyUpdate with
        completed_sections :=
          some (s.completed_sections ++
            [{ sectionTitle := s.current_section
               content := s.current_section_content
               tabular_data := none
               graph_spec := some g
               references := s.current_section_references }]) }

/-- The nodes of the section state machine (main_graph.py _build_graph),
plus the terminal END. -/
inductive Node where
  | extractor
  | reviewer
  | writer
  | table_generator
  | graph_generator
  | done
deriving DecidableEq, Repr

/-- One oracle outcome: the Except result of the model call made by the node
about to run (ok carries the parsed JSON, error a model/parse failure). -/
inductive Outcome where
  | extractRes (mr : Except String ParsedDraft)
  | reviewRes (mr : Except String Critique)
  | writeRes (mr : Except String ParsedDraft)
  | tableRes (mr : Except String TableData)
  | graphRes (mr : Except String GraphSpec)
deriving DecidableEq, Repr

/-- A machine configuration: the node about to run, the agent state, and
invocation counters for the writer and reviewer nodes. -/
structure Config where
  node : Node
  state : AgentState
  writerCount : Nat
  reviewerCount : Nat
deriving DecidableEq, Repr

/-- One step of the section state machine: run the node the configuration
points at on the oracle outcome, merge its partial update into the state,
and route along the conditional edge chosen by the matching decider
(main_graph.py _build_graph lines 56-109; the decider runs on the
post-update state).  A raised ValueError, or an outcome of the wrong kind
for the node, yields none. -/
def step (maxLoops : Nat) (c : Config) (o : Outcome) : Option Config :=
  match c.node, o with
  | Node.extractor, Outcome.extractRes mr =>
      match extract c.state mr with
      | Except.error _ => none
      | Except.ok u =>
          let s := applyUpdate c.state u
          some { c with
            node := if decide_next_step_after_extraction s = "review"
              then Node.reviewer else Node.done
            state := s }
  | Node.reviewer, Outcome.reviewRes mr =>
      let s := applyUpdate c.state (review c.state mr)
      some { c with
        node := if decide_next_step_after_review maxLoops s = "rewrite"
          then Node.writer else Node.table_generator
        state := s
        reviewerCount := c.reviewerCount + 1 }
  | Node.writer, Outcome.writeRes mr =>
      match rewrite c.state mr with
      | Except.error _ => none
      | Except.ok u =>
          let s := applyUpdate c.state u
          some { c with
            node := if decide_next_step_after_writer maxLoops s = "review"
              then Node.reviewer else Node.table_generator
            state := s
            writerCount := c.writerCount + 1 }
  | Node.table_generator, Outcome.tableRes mr =>
      some { c with
        node := Node.graph_generator
        state := applyUpdate c.state (generate_table c.state mr) }
  | Node.graph_generator, Outcome.graphRes mr =>
      some { c with
        node := Node.done
        state := applyUpdate c.state (generate_graph c.state mr) }
  | _, _ => none

/-- Run the machine on a list of oracle outcomes, consuming them in order. -/
def run (maxLoops : Nat) (c : Config) : List Outcome → Option Config
  | [] => some c
  | o :: os =>
      match step maxLoops c o with
      | none => none
      | some c' => run maxLoops c' os

/-- The per-section initial state built by run_analysis (main_graph.py lines
196-219): fresh loop_count 0, critique None, tabular_data None, graph_specs
[], and content/references still absent (modelled by their read defaults ""
and []). -/
def initialState (docs : List Document) (title instr : String) : AgentState :=
  { documents := docs
    current_section := title
    current_section_instruction := instr
    current_section_content := ""
    current_section_references := []
    critique := none
    loop_count := 0
    tabular_data := none
    graph_specs := []
    completed_sections := []
    msgs := 1 }

/-- The initial configuration for one section: entry point is always the
extractor node. -/
def initConfig (docs : List Document) (title instr : String) : Config :=
  { node := Node.extractor
    state := initialState docs title instr
    writerCount := 0
    reviewerCount := 0 }

/-- The finalized output record of one section (main_graph.py lines
236-243): built from the state keys current_section_content,
current_section_references, tabular_data and graph_specs with their read
defaults. -/
structure FinalizedSection where
  sectionTitle : String
  instruction : String
  content : String
  references : List Reference
  tabular_data : Option TableData
  graph_specs : List GraphSpec
deriving DecidableEq, Repr

/-- Snapshot the final state of a section into its FinalizedSection. -/
def finalizeSection (title instr : String) (s : AgentState) :
    FinalizedSection :=
  { sectionTitle := title
    instruction := instr
    content := s.current_section_content
    references := s.current_section_references
    tabular_data := s.tabular_data
    graph_specs := s.graph_specs }

/-- Drive one section from its initial configuration through the machine on
the given oracle outcomes; when the run completes at END, finalize. -/
def processSection (maxLoops : Nat) (docs : List Document)
    (title instr : String) (os : List Outcome) : Option FinalizedSection :=
  match run maxLoops (initConfig docs title instr) os with
  | none => none
  | some c =>
      if c.node = Node.done then some (finalizeSection title instr c.state)
      else none

/-- PortfolioAnalysisGraph.run_analysis (main_graph.py lines 164-253),
restricted to what the claims need: when the document list is empty it
returns the empty output immediately (lines 180-182); otherwise it processes
the requested sections in order, one oracle outcome list per section.
Passing previously completed sections forward as context is not modelled. -/
def run_analysis (maxLoops : Nat) (docs : List Document)
    (sections : List (String × String)) (oracle : List (List Outcome)) :
    List (Option FinalizedSection) :=
  if docs.isEmpty then []
  else (sections.zip oracle).map fun p =>
    processSection maxLoops docs p.1.1 p.1.2 p.2

/-- A write outcome is good when the model call succeeds and the rewritten
content (after the get default) is non-empty; outcomes of other nodes are
unconstrained. -/
def goodWrite (o : Outcome) : Bool :=
  match o with
  | Outcome.writeRes (Except.ok p) => decide (p.content.getD "" ≠ "")
  | Outcome.writeRes (Except.error _) => false
  | _ => true

/-- An actionable critique in the state only occurs alongside non-empty
content (reviews of empty content never produce a critique). -/
def critiqueSafe (s : AgentState) : Prop :=
  ∀ cr, s.critique = some cr → critiqueActionable cr = true →
    s.current_section_content ≠ ""

/-- The inductive invariant of the section state machine relating the
invocation counters to loop_count at every node. -/
def machineInv (N : Nat) (c : Config) : Prop :=
  (c.node = Node.extractor →
    c.state.loop_count = 0 ∧ c.writerCount = 0 ∧ c.reviewerCount = 0 ∧
    c.state.critique = none) ∧
  (c.node = Node.reviewer →
    c.writerCount = c.state.loop_count ∧
    c.reviewerCount = c.state.loop_count ∧
    (c.state.loop_count = 0 ∨ c.state.loop_count < N) ∧
    critiqueSafe c.state) ∧
  (c.node = Node.writer →
    c.writerCount = c.state.loop_count ∧
    c.reviewerCount = c.state.loop_count + 1 ∧
    c.state.loop_count < N ∧
    c.state.critique ≠ none ∧
    c.state.current_section_content ≠ "") ∧
  ((c.node = Node.table_generator ∨ c.node = Node.graph_generator ∨
      c.node = Node.done) →
    c.writerCount ≤ N ∧ 1 ≤ c.reviewerCount ∧ c.reviewerCount ≤ N + 1)

theorem applyUpdate_loop (s : AgentState) (u : StateUpdate) :
    (applyUpdate s u).loop_count = u.loop_count.getD s.loop_count := rfl

theorem applyUpdate_content (s : AgentState) (u : StateUpdate) :
    (applyUpdate s u).current_section_content =
      u.current_section_content.getD s.current_section_content := rfl

theorem critiqueActionable_iff (c : Critique) :
    critiqueActionable c = true ↔
      (c.expand_on ≠ [] ∨ c.remove_or_rephrase ≠ []) := by
  simp [critiqueActionable]

theorem decide_after_review_eq_rewrite_iff (N : Nat) (s : AgentState) :
    decide_next_step_after_review N s = "rewrite" ↔
      ∃ cr, s.critique = some cr ∧ critiqueActionable cr = true ∧
        s.loop_count < N := by
  unfold decide_next_step_after_review
  cases hcr : s.critique with
  | none =>
      constructor
      · intro h
        have h' : ("table_generation" : String) = "rewrite" := h
        exact absurd h' (by decide)
      · rintro ⟨cr, hc, -, -⟩; exact Option.noConfusion hc
  | some c =>
      show (if critiqueActionable c && decide (s.loop_count < N) then
          "rewrite" else "table_generation") = "rewrite" ↔ _
      by_cases hb : (critiqueActionable c && decide (s.loop_count < N)) = true
      · rw [if_pos hb]
        simp only [Bool.and_eq_true, decide_eq_true_eq] at hb
        exact ⟨fun _ => ⟨c, rfl, hb.1, hb.2⟩, fun _ => rfl⟩
      · rw [if_neg hb]
        simp only [Bool.and_eq_true, decide_eq_true_eq] at hb
        constructor
        · intro h; exact absurd h (by decide)
        · rintro ⟨cr, hc, ha, hl⟩
          cases Option.some.inj hc
          exact absurd ⟨ha, hl⟩ hb

theorem decide_after_writer_eq_review_iff (N : Nat) (s : AgentState) :
    decide_next_step_after_writer N s = "review" ↔ s.loop_count < N := by
  unfold decide_next_step_after_writer
  by_cases h : s.loop_count < N
  · rw [if_pos h]; exact ⟨fun _ => h, fun _ => rfl⟩
  · rw [if_neg h]
    exact ⟨fun hh => absurd hh (by decide), fun hh => absurd hh h⟩

theorem extract_ok_fields (s : AgentState) (mr : Except String ParsedDraft)
    (u : StateUpdate) (h : extract s mr = Except.ok u) :
    u.loop_count = none ∧ u.critique = none := by
  unfold extract at h
  split at h
  · exact Except.noConfusion h
  · split at h
    · exact Except.noConfusion h
    · cases mr with
      | error e =>
          obtain rfl : messageOnlyUpdate = u := Except.ok.inj h
          exact ⟨rfl, rfl⟩
      | ok r =>
          obtain rfl := Except.ok.inj h
          exact ⟨rfl, rfl⟩

theorem review_cases (s : AgentState) (mr : Except String Critique) :
    applyUpdate s (review s mr) = { s with msgs := s.msgs + 1 } ∨
    (s.current_section_content ≠ "" ∧ ∃ cr, mr = Except.ok cr ∧
      applyUpdate s (review s mr) =
        { s with critique := some cr, msgs := s.msgs + 1 }) := by
  unfold review
  by_cases hc : s.current_section_content = ""
  · rw [if_pos hc]; exact Or.inl rfl
  · rw [if_neg hc]
    cases mr with
    | error e => exact Or.inl rfl
    | ok cr => exact Or.inr ⟨hc, cr, rfl, rfl⟩

theorem rewrite_ok (s : AgentState) (p : ParsedDraft)
    (ht : ¬s.current_section = "") (hcr : ¬s.critique = none)
    (hct : ¬s.current_section_content = "") :
    rewrite s (Except.ok p) = Except.ok { emptyUpdate with
      current_section_content := some (p.content.getD "")
      current_section_references := some (p.references.getD [])
      loop_count := some (s.loop_count + 1)
      messageAdded := true } := by
  unfold rewrite
  rw [if_neg ht, if_neg hcr, if_neg hct]

theorem rewrite_err (s : AgentState) (e : String)
    (ht : ¬s.current_section = "") :
    rewrite s (Except.error e) = Except.ok messageOnlyUpdate := by
  unfold rewrite
  rw [if_neg ht]
  by_cases hcr : s.critique = none
  · rw [if_pos hcr]
  · rw [if_neg hcr]
    by_cases hct : s.current_section_content = ""
    · rw [if_pos hct]
    · rw [if_neg hct]

theorem machineInv_reviewerNode (N : Nat) (s : AgentState) (wc rc : Nat)
    (h1 : wc = s.loop_count) (h2 : rc = s.loop_count)
    (h3 : s.loop_count = 0 ∨ s.loop_count < N) (h4 : critiqueSafe s) :
    machineInv N
      { node := Node.reviewer, state := s, writerCount := wc,
        reviewerCount := rc } :=
  ⟨fun h => Node.noConfusion h,
   fun _ => ⟨h1, h2, h3, h4⟩,
   fun h => Node.noConfusion h,
   fun h => by rcases h with h | h | h <;> exact Node.noConfusion h⟩

theorem machineInv_writerNode (N : Nat) (s : AgentState) (wc rc : Nat)
    (h1 : wc = s.loop_count) (h2 : rc = s.loop_count + 1)
    (h3 : s.loop_count < N) (h4 : s.critique ≠ none)
    (h5 : s.current_section_content ≠ "") :
    machineInv N
      { node := Node.writer, state := s, writerCount := wc,
        reviewerCount := rc } :=
  ⟨fun h => Node.noConfusion h,
   fun h => Node.noConfusion h,
   fun _ => ⟨h1, h2, h3, h4, h5⟩,
   fun h => by rcases h with h | h | h <;> exact Node.noConfusion h⟩

theorem machineInv_terminalNode (N : Nat) (nd : Node) (s : AgentState)
    (wc rc : Nat)
    (hnd : nd = Node.table_generator ∨ nd = Node.graph_generator ∨
      nd = Node.done)
    (h1 : wc ≤ N) (h2 : 1 ≤ rc) (h3 : rc ≤ N + 1) :
    machineInv N
      { node := nd, state := s, writerCount := wc, reviewerCount := rc } := by
  rcases hnd with h | h | h <;> subst h <;>
    exact ⟨fun h => Node.noConfusion h, fun h => Node.noConfusion h,
      fun h => Node.noConfusion h, fun _ => ⟨h1, h2, h3⟩⟩

theorem machineInv_step (N : Nat) (c c' : Config) (o : Outcome)
    (hg : goodWrite o = true) (hI : machineInv N c)
    (hs : step N c o = some c') : machineInv N c' := by
  obtain ⟨nd, st, wc, rc⟩ := c
  obtain ⟨hIe, hIr, hIw, hIt⟩ := hI
  cases nd with
  | extractor =>
      cases o with
      | extractRes mr =>
          obtain ⟨hl0, hw0, hr0, hc0⟩ := hIe rfl
          have hl0' : st.loop_count = 0 := hl0
          have hw0' : wc = 0 := hw0
          have hr0' : rc = 0 := hr0
          have hc0' : st.critique = none := hc0
          simp only [step] at hs
          cases hex : extract st mr with
          | error e => rw [hex] at hs; exact Option.noConfusion hs
          | ok u =>
              rw [hex] at hs
              obtain ⟨hlu, hcu⟩ := extract_ok_fields st mr u hex
              injection hs with hs
              subst hs
              rw [show (if decide_next_step_after_extraction
                    (applyUpdate st u) = "review" then Node.reviewer
                  else Node.done) = Node.reviewer from if_pos rfl]
              have hsl : (applyUpdate st u).loop_count = st.loop_count := by
                rw [applyUpdate_loop, hlu]; rfl
              refine machineInv_reviewerNode N _ wc rc ?_ ?_ ?_ ?_
              · rw [hsl, hl0', hw0']
              · rw [hsl, hl0', hr0']
              · exact Or.inl (by rw [hsl, hl0'])
              · intro cr hcr
                rw [show (applyUpdate st u).critique = st.critique by
                  simp [applyUpdate, hcu], hc0'] at hcr
                exact Option.noConfusion hcr
      | reviewRes mr => exact Option.noConfusion hs
      | writeRes mr => exact Option.noConfusion hs
      | tableRes mr => exact Option.noConfusion hs
      | graphRes mr => exact Option.noConfusion hs
  | reviewer =>
      cases o with
      | extractRes mr => exact Option.noConfusion hs
      | reviewRes mr =>
          obtain ⟨hW, hR, hL, hCS⟩ := hIr rfl
          have hW' : wc = st.loop_count := hW
          have hR' : rc = st.loop_count := hR
          have hL' : st.loop_count = 0 ∨ st.loop_count < N := hL
          have hCS' : critiqueSafe st := hCS
          simp only [step] at hs
          injection hs with hs
          subst hs
          have hsl : (applyUpdate st (review st mr)).loop_count =
              st.loop_count := by
            rcases review_cases st mr with hcase | ⟨-, cr0, -, hcase⟩ <;>
              rw [hcase]
          have hsafe : critiqueSafe (applyUpdate st (review st mr)) := by
            rcases review_cases st mr with hcase | ⟨hne, cr0, -, hcase⟩
            · rw [hcase]
              intro cr hcr ha
              exact hCS' cr hcr ha
            · rw [hcase]
              intro cr hcr ha
              exact hne
          by_cases hd : decide_next_step_after_review N
              (applyUpdate st (review st mr)) = "rewrite"
          · rw [if_pos hd]
            obtain ⟨cr, hcr, hact, hlt⟩ :=
              (decide_after_review_eq_rewrite_iff N _).mp hd
            refine machineInv_writerNode N _ wc (rc + 1) ?_ ?_ hlt ?_ ?_
            · rw [hsl, hW']
            · rw [hsl, hR']
            · rw [hcr]; simp
            · exact hsafe cr hcr hact
          · rw [if_neg hd]
            refine machineInv_terminalNode N _ _ wc (rc + 1)
              (Or.inl rfl) ?_ ?_ ?_
            · rcases hL' with h0 | hlt <;> omega
            · omega
            · rcases hL' with h0 | hlt <;> omega
      | writeRes mr => exact Option.noConfusion hs
      | tableRes mr => exact Option.noConfusion hs
      | graphRes mr => exact Option.noConfusion hs
  | writer =>
      cases o with
      | extractRes mr => exact Option.noConfusion hs
      | reviewRes mr => exact Option.noConfusion hs
      | writeRes mr =>
          obtain ⟨hW, hR, hLN, hCne, hCt⟩ := hIw rfl
          have hW' : wc = st.loop_count := hW
          have hR' : rc = st.loop_count + 1 := hR
          have hLN' : st.loop_count < N := hLN
          have hCne' : st.critique ≠ none := hCne
          have hCt' : st.current_section_content ≠ "" := hCt
          cases mr with
          | error e => simp [goodWrite] at hg
          | ok p =>
              have hpc : p.content.getD "" ≠ "" := by
                simpa [goodWrite] using hg
              simp only [step] at hs
              by_cases hT : st.current_section = ""
              · rw [show rewrite st (Except.ok p) = Except.error
                    "No current section specified in the agent state." by
                  unfold rewrite; rw [if_pos hT]] at hs
                exact Option.noConfusion hs
              · rw [rewrite_ok st p hT hCne' hCt'] at hs
                injection hs with hs
                subst hs
                have hsl : (applyUpdate st { emptyUpdate with
                    current_section_content := some (p.content.getD "")
                    current_section_references := some (p.references.getD [])
                    loop_count := some (st.loop_count + 1)
                    messageAdded := true }).loop_count =
                      st.loop_count + 1 := rfl
                have hscnt : (applyUpdate st { emptyUpdate with
                    current_section_content := some (p.content.getD "")
                    current_section_references := some (p.references.getD [])
                    loop_count := some (st.loop_count + 1)
                    messageAdded := true }).current_section_content =
                      p.content.getD "" := rfl
                by_cases hd : decide_next_step_after_writer N
                    (applyUpdate st { emptyUpdate with
                      current_section_content := some (p.content.getD "")
                      current_section_references := some (p.references.getD [])
                      loop_count := some (st.loop_count + 1)
                      messageAdded := true }) = "review"
                · rw [if_pos hd]
                  have hlt : st.loop_count + 1 < N := by
                    have hh := (decide_after_writer_eq_review_iff N _).mp hd
                    rw [hsl] at hh
                    exact hh
                  refine machineInv_reviewerNode N _ (wc + 1) rc ?_ ?_ ?_ ?_
                  · rw [hsl, hW']
                  · rw [hsl, hR']
                  · exact Or.inr (by rw [hsl]; exact hlt)
                  · intro cr hcr ha
                    rw [hscnt]
                    exact hpc
                · rw [if_neg hd]
                  refine machineInv_terminalNode N _ _ (wc + 1) rc
                    (Or.inl rfl) ?_ ?_ ?_ <;> omega
      | tableRes mr => exact Option.noConfusion hs
      | graphRes mr => exact Option.noConfusion hs
  | table_generator =>
      cases o with
      | extractRes mr => exact Option.noConfusion hs
      | reviewRes mr => exact Option.noConfusion hs
      | writeRes mr => exact Option.noConfusion hs
      | tableRes mr =>
          obtain ⟨hWb, hR1, hRb⟩ := hIt (Or.inl rfl)
          have hWb' : wc ≤ N := hWb
          have hR1' : 1 ≤ rc := hR1
          have hRb' : rc ≤ N + 1 := hRb
          simp only [step] at hs
          injection hs with hs
          subst hs
          exact machineInv_terminalNode N _ _ wc rc
            (Or.inr (Or.inl rfl)) hWb' hR1' hRb'
      | graphRes mr => exact Option.noConfusion hs
  | graph_generator =>
      cases o with
      | extractRes mr => exact Option.noConfusion hs
      | reviewRes mr => exact Option.noConfusion hs
      | writeRes mr => exact Option.noConfusion hs
      | tableRes mr => exact Option.noConfusion hs
      | graphRes mr =>
          obtain ⟨hWb, hR1, hRb⟩ := hIt (Or.inr (Or.inl rfl))
          have hWb' : wc ≤ N := hWb
          have hR1' : 1 ≤ rc := hR1
          have hRb' : rc ≤ N + 1 := hRb
          simp only [step] at hs
          injection hs with hs
          subst hs
          exact machineInv_terminalNode N _ _ wc rc
            (Or.inr (Or.inr rfl)) hWb' hR1' hRb'
  | done =>
      cases o <;> exact Option.noConfusion hs

theorem machineInv_run (N : Nat) (os : List Outcome) (c c' : Config)
    (hg : ∀ o ∈ os, goodWrite o = true) (hI : machineInv N c)
    (hr : run N c os = some c') : machineInv N c' := by
  induction os generalizing c with
  | nil =>
      simp only [run] at hr
      injection hr with hr
      subst hr
      exact hI
  | cons o os ih =>
      simp only [run] at hr
      cases hst : step N c o with
      | none => rw [hst] at hr; exact Option.noConfusion hr
      | some c1 =>
          rw [hst] at hr
          exact ih c1 (fun x hx => hg x (List.mem_cons_of_mem o hx))
            (machineInv_step N c c1 o (hg o (List.mem_cons_self o os)) hI hst)
            hr

theorem machineInv_init (N : Nat) (docs : List Document)
    (title instr : String) : machineInv N (initConfig docs title instr) :=
  ⟨fun _ => ⟨rfl, rfl, rfl, rfl⟩,
   fun h => Node.noConfusion h,
   fun h => Node.noConfusion h,
   fun h => by rcases h with h | h | h <;> exact Node.noConfusion h⟩

/-- C1: corrected.  As stated the claim fails: a Writer invocation whose
model call raises does not increment loop_count, so the review loop can
re-enter the Writer beyond the budget.  Amended: for every max_review_loops
N and every complete run of the section state machine in which every Writer
invocation succeeds with non-empty rewritten content (so each invocation
increments loop_count), the Writer is invoked at most N times and the
Reviewer between 1 and N+1 times inclusive. -/
theorem writer_reviewer_invocation_bounds (N : Nat) (docs : List Document)
    (title instr : String) (os : List Outcome) (c : Config)
    (hg : ∀ o ∈ os, goodWrite o = true)
    (hr : run N (initConfig docs title instr) os = some c)
    (hd : c.node = Node.done) :
    c.writerCount ≤ N ∧ 1 ≤ c.reviewerCount ∧ c.reviewerCount ≤ N + 1 :=
  (machineInv_run N os (initConfig docs title instr) c hg
    (machineInv_init N docs title instr) hr).2.2.2
    (Or.inr (Or.inr hd))

/-- The single document used by the concrete machine runs below. -/
def docRun : Document :=
  { filename := "a.txt", content := "Revenue was 100M.", metadata := [] }

/-- An actionable critique (non-empty expand_on). -/
def critiqueA : Critique :=
  { expand_on := ["add margin detail"], remove_or_rephrase := []
    search_terms := [] }

/-- An empty, non-actionable critique. -/
def critiqueE : Critique :=
  { expand_on := [], remove_or_rephrase := [], search_terms := [] }

/-- A complete run for max_review_loops = 1 in which both Writer
invocations fail with a model error: extract ok, review (actionable),
write fails, review (actionable), write fails, review (empty), table,
graph. -/
def osWriterFails : List Outcome :=
  [ Outcome.extractRes (Except.ok { content := some "Draft.", references := some [] })
  , Outcome.reviewRes (Except.ok critiqueA)
  , Outcome.writeRes (Except.error "model failure")
  , Outcome.reviewRes (Except.ok critiqueA)
  , Outcome.writeRes (Except.error "model failure")
  , Outcome.reviewRes (Except.ok critiqueE)
  , Outcome.tableRes (Except.error "model failure")
  , Outcome.graphRes (Except.error "model failure") ]

/-- The final configuration of the osWriterFails run. -/
def cfgWriterFails : Config :=
  (run 1 (initConfig [docRun] "Financial Review" "") osWriterFails).getD
    (initConfig [docRun] "Financial Review" "")

/-- C1 counterexample: with max_review_loops = 1 there is a complete run of
the section state machine (Writer model calls failing, so loop_count never
advances) that invokes the Writer twice and the Reviewer three times,
violating both claimed bounds (Writer ≤ 1 and Reviewer ≤ 2). -/
theorem writer_reviewer_invocation_bounds_counterexample :
    run 1 (initConfig [docRun] "Financial Review" "") osWriterFails =
      some cfgWriterFails ∧
    cfgWriterFails.node = Node.done ∧
    cfgWriterFails.writerCount = 2 ∧ ¬(cfgWriterFails.writerCount ≤ 1) ∧
    cfgWriterFails.reviewerCount = 3 ∧
    ¬(cfgWriterFails.reviewerCount ≤ 1 + 1) := by decide

/-- A complete run for max_review_loops = 1 in which the single Writer
invocation succeeds. -/
def osWriterOk : List Outcome :=
  [ Outcome.extractRes (Except.ok { content := some "Draft.", references := some [] })
  , Outcome.reviewRes (Except.ok critiqueA)
  , Outcome.writeRes (Except.ok { content := some "Better draft.", references := some [] })
  , Outcome.tableRes (Except.error "model failure")
  , Outcome.graphRes (Except.error "model failure") ]

/-- The final configuration of the osWriterOk run. -/
def cfgWriterOk : Config :=
  (run 1 (initConfig [docRun] "Financial Review" "") osWriterOk).getD
    (initConfig [docRun] "Financial Review" "")

/-- Witness for the amended C1 theorem at a concrete complete run with
max_review_loops = 1. -/
theorem writer_reviewer_invocation_bounds_witness :
    cfgWriterOk.writerCount ≤ 1 ∧ 1 ≤ cfgWriterOk.reviewerCount ∧
      cfgWriterOk.reviewerCount ≤ 1 + 1 :=
  writer_reviewer_invocation_bounds 1 [docRun] "Financial Review" ""
    osWriterOk cfgWriterOk (by decide) (by decide) (by decide)

/-- C2: confirmed.  After every Reviewer run the machine moves to the
Writer (Rewriting) iff the state's critique is non-null with a non-empty
expand_on or remove_or_rephrase and loop_count < max_review_loops; in every
other case it moves to the Table Generator (Tabulating). -/
theorem review_transition_iff (N : Nat) (c c' : Config) (o : Outcome)
    (hn : c.node = Node.reviewer) (hs : step N c o = some c') :
    (c'.node = Node.writer ↔
      ∃ cr, c'.state.critique = some cr ∧
        (cr.expand_on ≠ [] ∨ cr.remove_or_rephrase ≠ []) ∧
        c'.state.loop_count < N) ∧
    (c'.node ≠ Node.writer → c'.node = Node.table_generator) := by
  obtain ⟨nd, st, wc, rc⟩ := c
  have hnd : nd = Node.reviewer := hn
  subst hnd
  cases o with
  | extractRes mr => exact Option.noConfusion hs
  | reviewRes mr =>
      simp only [step] at hs
      injection hs with hs
      subst hs
      by_cases hd : decide_next_step_after_review N
          (applyUpdate st (review st mr)) = "rewrite"
      · rw [if_pos hd]
        obtain ⟨cr, hcr, hact, hlt⟩ :=
          (decide_after_review_eq_rewrite_iff N _).mp hd
        constructor
        · constructor
          · intro _
            exact ⟨cr, hcr, (critiqueActionable_iff cr).mp hact, hlt⟩
          · intro _; rfl
        · intro hne; exact absurd rfl hne
      · rw [if_neg hd]
        constructor
        · constructor
          · intro h; exact Node.noConfusion h
          · rintro ⟨cr, hcr, hact, hlt⟩
            exact absurd ((decide_after_review_eq_rewrite_iff N _).mpr
              ⟨cr, hcr, (critiqueActionable_iff cr).mpr hact, hlt⟩) hd
        · intro _; rfl
  | writeRes mr => exact Option.noConfusion hs
  | tableRes mr => exact Option.noConfusion hs
  | graphRes mr => exact Option.noConfusion hs

/-- A configuration sitting at the reviewer node with non-empty content and
zero loop_count, used as a concrete input below. -/
def cfgAtReviewer : Config :=
  { node := Node.reviewer
    state := { initialState [docRun] "Financial Review" "" with
      current_section_content := "Draft." }
    writerCount := 0
    reviewerCount := 0 }

/-- The configuration reached from cfgAtReviewer by a reviewer step that
returns an actionable critique. -/
def cfgAfterReview : Config :=
  (step 1 cfgAtReviewer (Outcome.reviewRes (Except.ok critiqueA))).getD
    cfgAtReviewer

/-- Witness for C2 at a concrete reviewer step with an actionable critique
and remaining loop budget. -/
theorem review_transition_iff_witness :
    (cfgAfterReview.node = Node.writer ↔
      ∃ cr, cfgAfterReview.state.critique = some cr ∧
        (cr.expand_on ≠ [] ∨ cr.remove_or_rephrase ≠ []) ∧
        cfgAfterReview.state.loop_count < 1) ∧
    (cfgAfterReview.node ≠ Node.writer →
      cfgAfterReview.node = Node.table_generator) :=
  review_transition_iff 1 cfgAtReviewer cfgAfterReview
    (Outcome.reviewRes (Except.ok critiqueA)) (by decide) (by decide)

/-- C10: confirmed.  The decider after the extractor returns "review" on
every agent state, and every extractor step (successful or failed
extraction alike) moves to the Reviewer node, never to END. -/
theorem extractor_always_proceeds_to_reviewer (N : Nat) (c c' : Config)
    (o : Outcome) (s : AgentState) (hn : c.node = Node.extractor)
    (hs : step N c o = some c') :
    decide_next_step_after_extraction s = "review" ∧
    c'.node = Node.reviewer ∧ c'.node ≠ Node.done := by
  refine ⟨rfl, ?_⟩
  obtain ⟨nd, st, wc, rc⟩ := c
  have hnd : nd = Node.extractor := hn
  subst hnd
  cases o with
  | extractRes mr =>
      simp only [step] at hs
      cases hex : extract st mr with
      | error e => rw [hex] at hs; exact Option.noConfusion hs
      | ok u =>
          rw [hex] at hs
          injection hs with hs
          subst hs
          rw [show (if decide_next_step_after_extraction
                (applyUpdate st u) = "review" then Node.reviewer
              else Node.done) = Node.reviewer from if_pos rfl]
          exact ⟨rfl, fun h => Node.noConfusion h⟩
  | reviewRes mr => exact Option.noConfusion hs
  | writeRes mr => exact Option.noConfusion hs
  | tableRes mr => exact Option.noConfusion hs
  | graphRes mr => exact Option.noConfusion hs

/-- The configuration reached from the initial configuration by an
extractor step whose model call fails. -/
def cfgAfterFailedExtraction : Config :=
  (step 1 (initConfig [docRun] "Financial Review" "")
      (Outcome.extractRes (Except.error "model failure"))).getD
    (initConfig [docRun] "Financial Review" "")

/-- Witness for C10 at a concrete extractor step whose extraction failed:
the machine still proceeds to the Reviewer. -/
theorem extractor_always_proceeds_to_reviewer_witness :
    decide_next_step_after_extraction
      (initialState [docRun] "Financial Review" "") = "review" ∧
    cfgAfterFailedExtraction.node = Node.reviewer ∧
    cfgAfterFailedExtraction.node ≠ Node.done :=
  extractor_always_proceeds_to_reviewer 1
    (initConfig [docRun] "Financial Review" "") cfgAfterFailedExtraction
    (Outcome.extractRes (Except.error "model failure"))
    (initialState [docRun] "Financial Review" "") (by decide) (by decide)

/-- C3: corrected.  As stated the claim fails: a Writer invocation whose
model call raises leaves loop_count unchanged.  Amended: a successful
Writer invocation (reached with a present critique and non-empty content)
increments loop_count by exactly one and the post-Writer transition
compares the incremented count against max_review_loops, returning to the
Reviewer iff it is still below the budget and otherwise proceeding to the
Table Generator; a failed Writer invocation leaves loop_count unchanged. -/
theorem writer_loop_count_and_transition (N : Nat) (c c' : Config)
    (mr : Except String ParsedDraft) (p : ParsedDraft) (e : String)
    (hn : c.node = Node.writer) (ht : c.state.current_section ≠ "")
    (hcr : c.state.critique ≠ none)
    (hct : c.state.current_section_content ≠ "")
    (hs : step N c (Outcome.writeRes mr) = some c') :
    (mr = Except.ok p →
      c'.state.loop_count = c.state.loop_count + 1 ∧
      (c'.node = Node.reviewer ↔ c.state.loop_count + 1 < N) ∧
      (c'.node ≠ Node.reviewer → c'.node = Node.table_generator)) ∧
    (mr = Except.error e → c'.state.loop_count = c.state.loop_count) := by
  obtain ⟨nd, st, wc, rc⟩ := c
  have hnd : nd = Node.writer := hn
  subst hnd
  have ht' : ¬st.current_section = "" := ht
  have hcr' : ¬st.critique = none := hcr
  have hct' : ¬st.current_section_content = "" := hct
  simp only [step] at hs
  constructor
  · rintro rfl
    rw [rewrite_ok st p ht' hcr' hct'] at hs
    injection hs with hs
    subst hs
    have hsl : (applyUpdate st { emptyUpdate with
        current_section_content := some (p.content.getD "")
        current_section_references := some (p.references.getD [])
        loop_count := some (st.loop_count + 1)
        messageAdded := true }).loop_count = st.loop_count + 1 := rfl
    refine ⟨hsl, ?_, ?_⟩
    · by_cases hd : decide_next_step_after_writer N
          (applyUpdate st { emptyUpdate with
            current_section_content := some (p.content.getD "")
            current_section_references := some (p.references.getD [])
            loop_count := some (st.loop_count + 1)
            messageAdded := true }) = "review"
      · rw [if_pos hd]
        have hh := (decide_after_writer_eq_review_iff N _).mp hd
        rw [hsl] at hh
        exact ⟨fun _ => hh, fun _ => rfl⟩
      · rw [if_neg hd]
        constructor
        · intro h; exact Node.noConfusion h
        · intro hlt
          exact absurd ((decide_after_writer_eq_review_iff N _).mpr
            (by rw [hsl]; exact hlt)) hd
    · by_cases hd : decide_next_step_after_writer N
          (applyUpdate st { emptyUpdate with
            current_section_content := some (p.content.getD "")
            current_section_references := some (p.references.getD [])
            loop_count := some (st.loop_count + 1)
            messageAdded := true }) = "review"
      · rw [if_pos hd]
        intro h; exact absurd rfl h
      · rw [if_neg hd]
        intro _; rfl
  · rintro rfl
    rw [rewrite_err st e ht'] at hs
    injection hs with hs
    subst hs
    show (applyUpdate st messageOnlyUpdate).loop_count = st.loop_count
    rfl

/-- A configuration sitting at the writer node with an actionable critique,
non-empty content and zero loop_count. -/
def cfgAtWriter : Config :=
  { node := Node.writer
    state := { initialState [docRun] "Financial Review" "" with
      current_section_content := "Draft."
      critique := some critiqueA }
    writerCount := 0
    reviewerCount := 1 }

/-- The configuration reached from cfgAtWriter by a failing writer step. -/
def cfgAfterFailedWrite : Config :=
  (step 1 cfgAtWriter (Outcome.writeRes (Except.error "model failure"))).getD
    cfgAtWriter

/-- C3 counterexample: a Writer invocation whose model call fails leaves
loop_count at its previous value instead of incrementing it by one. -/
theorem writer_loop_count_counterexample :
    step 1 cfgAtWriter (Outcome.writeRes (Except.error "model failure")) =
      some cfgAfterFailedWrite ∧
    cfgAfterFailedWrite.state.loop_count = cfgAtWriter.state.loop_count ∧
    ¬(cfgAfterFailedWrite.state.loop_count =
        cfgAtWriter.state.loop_count + 1) := by decide

/-- The configuration reached from cfgAtWriter by a successful writer
step. -/
def cfgAfterOkWrite : Config :=
  (step 1 cfgAtWriter (Outcome.writeRes (Except.ok
      { content := some "Better draft.", references := some [] }))).getD
    cfgAtWriter

/-- Witness for the amended C3 theorem at a concrete successful writer step
with max_review_loops = 1. -/
theorem writer_loop_count_and_transition_witness :
    ((Except.ok { content := some "Better draft.", references := some [] } :
        Except String ParsedDraft) =
      Except.ok { content := some "Better draft.", references := some [] } →
      cfgAfterOkWrite.state.loop_count = cfgAtWriter.state.loop_count + 1 ∧
      (cfgAfterOkWrite.node = Node.reviewer ↔
        cfgAtWriter.state.loop_count + 1 < 1) ∧
      (cfgAfterOkWrite.node ≠ Node.reviewer →
        cfgAfterOkWrite.node = Node.table_generator)) ∧
    ((Except.ok { content := some "Better draft.", references := some [] } :
        Except String ParsedDraft) = Except.error "model failure" →
      cfgAfterOkWrite.state.loop_count = cfgAtWriter.state.loop_count) :=
  writer_loop_count_and_transition 1 cfgAtWriter cfgAfterOkWrite
    (Except.ok { content := some "Better draft.", references := some [] })
    { content := some "Better draft.", references := some [] }
    "model failure" (by decide) (by decide) (by decide) (by decide)
    (by decide)

/-- A complete run for max_review_loops = 0 in which the table stage
succeeds with the empty-result sentinel and the graph stage succeeds with a
bar-chart spec. -/
def osTableSentinel : List Outcome :=
  [ Outcome.extractRes (Except.ok { content := some "Draft.", references := some [] })
  , Outcome.reviewRes (Except.ok critiqueE)
  , Outcome.tableRes (Except.ok { title := "", rows := [] })
  , Outcome.graphRes (Except.ok { title := "Revenue", type := "bar", data := "series" }) ]

/-- The final configuration of the osTableSentinel run. -/
def cfgTableSentinel : Config :=
  (run 0 (initConfig [docRun] "Financial Review" "") osTableSentinel).getD
    (initConfig [docRun] "Financial Review" "")

/-- The FinalizedSection emitted for the osTableSentinel run. -/
def fsTableSentinel : FinalizedSection :=
  (processSection 0 [docRun] "Financial Review" "" osTableSentinel).getD
    (finalizeSection "Financial Review" ""
      (initialState [docRun] "Financial Review" ""))

/-- C4: code_bug.  In a complete run whose Table Generator returns the
empty-result sentinel, the sentinel is recorded only inside a
completed_sections entry; the tabular_data state key that run_analysis
copies into the FinalizedSection is never written by any node, so the
emitted FinalizedSection carries tabular_data = null (the did-not-run
value) instead of the sentinel. -/
theorem tabular_data_sentinel_not_preserved :
    run 0 (initConfig [docRun] "Financial Review" "") osTableSentinel =
      some cfgTableSentinel ∧
    cfgTableSentinel.node = Node.done ∧
    (cfgTableSentinel.state.completed_sections.map
        fun cs => cs.tabular_data) =
      [some { title := "", rows := [] }, none] ∧
    processSection 0 [docRun] "Financial Review" "" osTableSentinel =
      some fsTableSentinel ∧
    fsTableSentinel.tabular_data = none ∧
    fsTableSentinel.tabular_data ≠ some { title := "", rows := [] } := by
  decide

/-- C5: code_bug.  In the same complete run the Graph Generator's output is
appended only to completed_sections under the graph_spec key; the
graph_specs state key that run_analysis copies into the FinalizedSection is
never written by any node, so the emitted FinalizedSection carries the
initial empty graph_specs sequence instead of the generated spec. -/
theorem graph_specs_not_propagated :
    (cfgTableSentinel.state.completed_sections.map fun cs => cs.graph_spec) =
      [none, some { title := "Revenue", type := "bar", data := "series" }] ∧
    fsTableSentinel.graph_specs = [] ∧
    fsTableSentinel.graph_specs ≠
      [{ title := "Revenue", type := "bar", data := "series" }] := by decide

/-- The update returned by a successful extraction whose parsed response
has neither a content nor a references key. -/
def extractNoKeysResult : Except String StateUpdate :=
  extract (initialState [docRun] "Financial Review" "")
    (Except.ok { content := none, references := none })

/-- C6 counterexample: a successful extraction whose parsed response lacks
the content key yields content "" rather than the placeholder string the
claim names. -/
theorem extractor_missing_content_counterexample :
    extractNoKeysResult = Except.ok { emptyUpdate with
      current_section_content := some ""
      current_section_references := some []
      messageAdded := true } ∧
    ("" : String) ≠ "No information found for this section." := by decide

/-- C6: corrected.  A successful extraction whose parsed model response
lacks the content key defaults the section content to the empty string
(the placeholder string is only requested from the model in the prompt),
and a missing references key defaults to the empty sequence. -/
theorem extractor_missing_key_defaults (s : AgentState) (r : ParsedDraft)
    (u : StateUpdate) (ht : s.current_section ≠ "") (hd : s.documents ≠ [])
    (h : extract s (Except.ok r) = Except.ok u) :
    (r.content = none → u.current_section_content = some "") ∧
    (r.references = none → u.current_section_references = some []) := by
  unfold extract at h
  rw [if_neg ht, if_neg hd] at h
  injection h with h
  subst h
  constructor
  · intro hc
    show some (r.content.getD "") = some ""
    rw [hc]
    rfl
  · intro hrf
    show some (r.references.getD []) = some []
    rw [hrf]
    rfl

/-- The update inside extractNoKeysResult. -/
def extractNoKeysUpdate : StateUpdate :=
  match extractNoKeysResult with
  | Except.ok u => u
  | Except.error _ => emptyUpdate

/-- Witness for the C6 theorem at a concrete extraction with both keys
missing, so both independent conditionals apply. -/
theorem extractor_missing_key_defaults_witness :
    (({ content := none, references := none } : ParsedDraft).content =
        none →
      extractNoKeysUpdate.current_section_content = some "") ∧
    (({ content := none, references := none } : ParsedDraft).references =
        none →
      extractNoKeysUpdate.current_section_references = some []) :=
  extractor_missing_key_defaults
    (initialState [docRun] "Financial Review" "")
    { content := none, references := none }
    extractNoKeysUpdate
    (by decide) (by decide) (by decide)

/-- C7 counterexample: with an empty document set, run_analysis returns the
empty output sequence, emitting no FinalizedSection at all for the one
requested section. -/
theorem empty_documents_counterexample :
    run_analysis 1 [] [("Overview", "")] [[]] = [] ∧
    (run_analysis 1 [] [("Overview", "")] [[]]).length ≠
      [("Overview", "")].length := by decide

/-- C7: corrected.  An Extractor invocation on an empty document set fails
with the InvalidInput error, but the orchestrator guards against empty
documents by returning the empty output sequence immediately: it emits no
FinalizedSection for any requested section (it does not crash, and it also
does not emit placeholder sections). -/
theorem empty_documents_behavior (N : Nat)
    (sections : List (String × String)) (oracle : List (List Outcome))
    (s : AgentState) (mr : Except String ParsedDraft)
    (ht : s.current_section ≠ "") (hd : s.documents = []) :
    run_analysis N [] sections oracle = [] ∧
    extract s mr =
      Except.error "No documents available in the agent state for extraction." := by
  constructor
  · unfold run_analysis
    rw [if_pos (by rfl)]
  · unfold extract
    rw [if_neg ht, if_pos hd]

/-- An agent state over an empty document set. -/
def stateNoDocs : AgentState := initialState [] "Overview" ""

/-- Witness for the C7 theorem at a concrete empty-document run. -/
theorem empty_documents_behavior_witness :
    run_analysis 1 [] [("Overview", "")] [[]] = [] ∧
    extract stateNoDocs (Except.error "model failure") =
      Except.error "No documents available in the agent state for extraction." :=
  empty_documents_behavior 1 [("Overview", "")] [[]] stateNoDocs
    (Except.error "model failure") (by decide) (by decide)

/-- A state update that modifies none of the accumulated section fields:
content, references, loop_count, tabular_data, graph_specs all absent. -/
def noCoreFieldUpdate (u : StateUpdate) : Prop :=
  u.current_section_content = none ∧
  u.current_section_references = none ∧
  u.loop_count = none ∧
  u.tabular_data = none ∧
  u.graph_specs = none

/-- C8 counterexample: a Graph Generator invocation that fails with a model
error returns the empty update, which records no failure message at all,
contradicting the claim that every such failure leaves only a recorded
failure message. -/
theorem graph_failure_records_no_message_counterexample :
    generate_graph (initialState [docRun] "Financial Review" "")
      (Except.error "model failure") = emptyUpdate ∧
    emptyUpdate.messageAdded = false ∧
    emptyUpdate.messageAdded ≠ true := by decide

/-- C8: corrected.  A failed Extractor or Writer invocation returns an
update that modifies none of content, references, loop_count, tabular_data
or graph_specs and records only a failure message; a failed Graph Generator
invocation likewise modifies none of those fields but returns the empty
update, recording no message in the state. -/
theorem stage_failure_preserves_state (s : AgentState) (e : String)
    (uE uW : StateUpdate)
    (ht : s.current_section ≠ "") (hd : s.documents ≠ [])
    (hcr : s.critique ≠ none) (hct : s.current_section_content ≠ "")
    (hE : extract s (Except.error e) = Except.ok uE)
    (hW : rewrite s (Except.error e) = Except.ok uW) :
    noCoreFieldUpdate uE ∧ uE.messageAdded = true ∧
    noCoreFieldUpdate uW ∧ uW.messageAdded = true ∧
    noCoreFieldUpdate (generate_graph s (Except.error e)) ∧
    (generate_graph s (Except.error e)).messageAdded = false := by
  have hE' : uE = messageOnlyUpdate := by
    unfold extract at hE
    rw [if_neg ht, if_neg hd] at hE
    exact (Except.ok.inj hE).symm
  have hW' : uW = messageOnlyUpdate := by
    rw [rewrite_err s e ht] at hW
    exact (Except.ok.inj hW).symm
  subst hE'
  subst hW'
  exact ⟨⟨rfl, rfl, rfl, rfl, rfl⟩, rfl, ⟨rfl, rfl, rfl, rfl, rfl⟩, rfl,
    ⟨rfl, rfl, rfl, rfl, rfl⟩, rfl⟩

/-- The update returned by a failing extraction over cfgAtWriter's state. -/
def uExtractErr : StateUpdate :=
  match extract cfgAtWriter.state (Except.error "model failure") with
  | Except.ok u => u
  | Except.error _ => emptyUpdate

/-- The update returned by a failing rewrite over cfgAtWriter's state. -/
def uRewriteErr : StateUpdate :=
  match rewrite cfgAtWriter.state (Except.error "model failure") with
  | Except.ok u => u
  | Except.error _ => emptyUpdate

/-- Witness for the C8 theorem at a concrete state with accumulated
content, references and critique. -/
theorem stage_failure_preserves_state_witness :
    noCoreFieldUpdate uExtractErr ∧ uExtractErr.messageAdded = true ∧
    noCoreFieldUpdate uRewriteErr ∧ uRewriteErr.messageAdded = true ∧
    noCoreFieldUpdate (generate_graph cfgAtWriter.state
      (Except.error "model failure")) ∧
    (generate_graph cfgAtWriter.state
      (Except.error "model failure")).messageAdded = false :=
  stage_failure_preserves_state cfgAtWriter.state "model failure"
    uExtractErr uRewriteErr (by decide) (by decide) (by decide) (by decide)
    (by decide) (by decide)

/-- C9 counterexample: with an empty search_terms list (under which no term
matches any document, vacuously), the targeted search returns the string
"No specific search terms provided." rather than the claimed sentinel
"No new information found for search terms.". -/
theorem targeted_search_empty_terms_counterexample :
    perform_targeted_search [docRun] [] =
      "No specific search terms provided." ∧
    ("No specific search terms provided." : String) ≠
      "No new information found for search terms." := by decide

/-- C9: corrected.  For a non-empty search_terms list the targeted search
scans every document's content case-insensitively for each term: when no
term matches any document the returned block is exactly the sentinel
"No new information found for search terms."; otherwise the block is the
newline-join of the collected snippets, and every collected snippet comes
from a term/document pair whose case-insensitive match succeeded and embeds
at most the first 200 characters of that document's content.  When
search_terms is empty the block is instead
"No specific search terms provided.". -/
theorem targeted_search_characterization (documents : List Document)
    (search_terms : List String) (h : search_terms ≠ []) :
    ((∀ t ∈ search_terms, ∀ d ∈ documents,
        containsCI d.content t = false) →
      perform_targeted_search documents search_terms =
        "No new information found for search terms.") ∧
    (search_snippets documents search_terms ≠ [] →
      perform_targeted_search documents search_terms =
        String.intercalate "\n" (search_snippets documents search_terms)) ∧
    (∀ sn ∈ search_snippets documents search_terms,
      ∃ t ∈ search_terms, ∃ d ∈ documents,
        containsCI d.content t = true ∧ sn = foundSnippet t d ∧
        (String.mk (d.content.data.take 200)).length ≤ 200) := by
  have hne : ¬(search_terms.isEmpty = true) := by
    simpa [List.isEmpty_iff] using h
  refine ⟨?_, ?_, ?_⟩
  · intro hnm
    have hempty : search_snippets documents search_terms = [] := by
      rw [List.eq_nil_iff_forall_not_mem]
      intro sn hsn
      obtain ⟨t, ht, hsn2⟩ := List.mem_flatMap.mp hsn
      obtain ⟨d, hd, hcond⟩ := List.mem_filterMap.mp hsn2
      by_cases hc : containsCI d.content t = true
      · rw [hnm t ht d hd] at hc
        exact Bool.noConfusion hc
      · rw [if_neg hc] at hcond
        exact Option.noConfusion hcond
    unfold perform_targeted_search
    rw [if_neg hne]
    simp [hempty]
  · intro hsne
    unfold perform_targeted_search
    rw [if_neg hne]
    have hie : ¬((search_snippets documents search_terms).isEmpty = true) := by
      simpa [List.isEmpty_iff] using hsne
    simp only []
    rw [if_neg hie]
  · intro sn hsn
    obtain ⟨t, ht, hsn2⟩ := List.mem_flatMap.mp hsn
    obtain ⟨d, hd, hcond⟩ := List.mem_filterMap.mp hsn2
    by_cases hc : containsCI d.content t = true
    · rw [if_pos hc] at hcond
      refine ⟨t, ht, d, hd, hc, (Option.some.inj hcond).symm, ?_⟩
      show (d.content.data.take 200).length ≤ 200
      simp [List.length_take]
    · rw [if_neg hc] at hcond
      exact Option.noConfusion hcond

/-- Witness for the C9 theorem: one term that matches nothing (the
sentinel case) over the concrete document. -/
theorem targeted_search_characterization_witness :
    ((∀ t ∈ ["margin"], ∀ d ∈ [docRun],
        containsCI d.content t = false) →
      perform_targeted_search [docRun] ["margin"] =
        "No new information found for search terms.") ∧
    (search_snippets [docRun] ["margin"] ≠ [] →
      perform_targeted_search [docRun] ["margin"] =
        String.intercalate "\n" (search_snippets [docRun] ["margin"])) ∧
    (∀ sn ∈ search_snippets [docRun] ["margin"],
      ∃ t ∈ ["margin"], ∃ d ∈ [docRun],
        containsCI d.content t = true ∧ sn = foundSnippet t d ∧
        (String.mk (d.content.data.take 200)).length ≤ 200) :=
  targeted_search_characterization [docRun] ["margin"] (by decide)
